import Mathlib

/-!
Shallow embedding of the screenplay_bot transformation core.

The embedding follows the Python sources:
  src/services/rewrite_to_fountain.py  (parser, act assignment, scoping,
    rewrite orchestration, diff, fountain serialization)
  src/services/notes_to_json.py        (placement normalization, change plan
    schema validation)

External effects (the Gemini API call, file IO, docx reading) are abstracted:
the per scene rewrite call is a parameter that yields either an exception
(any error raised inside the task: transport failure, invalid JSON, an
unindexable payload) or the JSON list parsed from the response text.  All
other code is translated directly.
-/

namespace ScreenplayBot

/-! ## Python string primitives

These are written as structural recursions over the character list of a
string so that every concrete evaluation reduces inside the kernel. -/

/-- Python str.upper for the ASCII strings handled here. -/
def pyUpper (s : String) : String := ⟨s.data.map Char.toUpper⟩

/-- Python str.lower for the ASCII strings handled here. -/
def pyLower (s : String) : String := ⟨s.data.map Char.toLower⟩

/-- ASCII whitespace as stripped by Python str.strip on the documents
handled here. -/
def isWS (c : Char) : Bool := c == ' ' || c == '\t' || c == '\n' || c == '\r'

/-- Drop leading whitespace characters. -/
def dropWS : List Char → List Char
  | [] => []
  | c :: t => if isWS c then dropWS t else c :: t

/-- Python str.strip: remove whitespace from both ends. -/
def pyStrip (s : String) : String := ⟨((dropWS s.data).reverse |> dropWS).reverse⟩

/-- Does the first list of characters start the second one? -/
def leadEq : List Char → List Char → Bool
  | [], _ => true
  | _ :: _, [] => false
  | a :: as, b :: bs => a == b && leadEq as bs

/-- Substring search on character lists. -/
def pyInChars (n : List Char) : List Char → Bool
  | [] => leadEq n []
  | c :: t => leadEq n (c :: t) || pyInChars n t

/-- Python substring containment: needle in hay. -/
def pyIn (needle hay : String) : Bool := pyInChars needle.data hay.data

/-! ## Data model

Scenes are Python dicts with keys scene_id, heading, elements and (after
assign_acts) act; the act field is modelled as a String that is empty until
assigned.  Elements are dicts with keys type and text. -/

structure Element where
  type : String
  text : String
deriving DecidableEq, Repr

structure Scene where
  scene_id : String
  heading : String
  elements : List Element
  act : String
deriving DecidableEq, Repr

structure Screenplay where
  scenes : List Scene
deriving DecidableEq, Repr

/-- One entry of scene_level_changes as produced by notes_to_json.py.
The orchestrator reads placement through change.get with default empty
string, so an absent key is indistinguishable from the empty string and the
field is modelled as a plain String. -/
structure Change where
  change_id : String
  description : String
  placement : String
deriving DecidableEq, Repr

structure ChangePlan where
  scene_level_changes : List Change
deriving DecidableEq, Repr

/-! ## notes_to_json.normalize_placement (src/services/notes_to_json.py:97) -/

/-- Direct translation of normalize_placement: empty input falls to the
default, then ordered substring tests on the lowercased input. -/
def normalize_placement (text : String) : String :=
  if text = "" then "Entire Screenplay"
  else if pyIn "act i" (pyLower text) then "Act I"
  else if pyIn "act ii" (pyLower text) then "Act II"
  else if pyIn "act iii" (pyLower text) then "Act III"
  else if pyIn "entire" (pyLower text) || pyIn "whole" (pyLower text) ||
          pyIn "throughout" (pyLower text) then "Entire Screenplay"
  else if pyIn "scene" (pyLower text) then "Specific Scene"
  else "Entire Screenplay"

/-! ## Act assignment (src/services/rewrite_to_fountain.py:105) -/

/-- The act chosen for scene index i out of total scenes.  The Python code
computes ratio = i / max(total, 1) with float division and compares against
0.25 and 0.75; the division is modelled over the rationals, where the two
boundary constants are exact. -/
def actFor (i total : Nat) : String :=
  if ((i : ℚ) / (max total 1 : ℚ)) < 1/4 then "Act I"
  else if ((i : ℚ) / (max total 1 : ℚ)) < 3/4 then "Act II"
  else "Act III"

/-- The rational comparisons of actFor, rephrased over the naturals: with a
positive denominator, i / m < 1/4 holds exactly when 4 * i < m, and
i / m < 3/4 exactly when 4 * i < 3 * m.  Used to evaluate actFor on
concrete inputs. -/
theorem actFor_eq (i total : Nat) :
    actFor i total =
      (if 4 * i < max total 1 then "Act I"
       else if 4 * i < 3 * max total 1 then "Act II"
       else "Act III") := by
  have hm : (0 : ℚ) < (max total 1 : ℚ) := by
    have : (1 : Nat) ≤ max total 1 := le_max_right _ _
    exact_mod_cast Nat.lt_of_lt_of_le Nat.zero_lt_one this
  unfold actFor
  have h1 : ((i : ℚ) / (max total 1 : ℚ) < 1/4) ↔ (4 * i < max total 1) := by
    rw [div_lt_iff₀ hm]
    constructor
    · intro h
      have h4 : ((4 * i : Nat) : ℚ) < ((max total 1 : Nat) : ℚ) := by push_cast; linarith
      exact_mod_cast h4
    · intro h
      have h4 : ((4 * i : Nat) : ℚ) < ((max total 1 : Nat) : ℚ) := by exact_mod_cast h
      push_cast at h4
      linarith
  have h3 : ((i : ℚ) / (max total 1 : ℚ) < 3/4) ↔ (4 * i < 3 * max total 1) := by
    rw [div_lt_iff₀ hm]
    constructor
    · intro h
      have h4 : ((4 * i : Nat) : ℚ) < ((3 * max total 1 : Nat) : ℚ) := by push_cast; linarith
      exact_mod_cast h4
    · intro h
      have h4 : ((4 * i : Nat) : ℚ) < ((3 * max total 1 : Nat) : ℚ) := by exact_mod_cast h
      push_cast at h4
      linarith
  simp only [h1, h3]

/-- The enumerate loop of assign_acts, carrying the running index. -/
def assignFrom (total : Nat) : Nat → List Scene → List Scene
  | _, [] => []
  | i, sc :: rest => { sc with act := actFor i total } :: assignFrom total (i + 1) rest

/-- assign_acts: overwrite the act field of every scene from its index and
the total count. -/
def assign_acts (sp : Screenplay) : Screenplay :=
  ⟨assignFrom sp.scenes.length 0 sp.scenes⟩

/-! ## Scene targeting (src/services/rewrite_to_fountain.py:120) -/

/-- Direct translation of scene_needs_rewrite: the loop returns True as soon
as one change satisfies the test, i.e. the uppercased act of the scene is a
substring of the uppercased placement of the change. -/
def scene_needs_rewrite (scene : Scene) (change_plan : ChangePlan) : Bool :=
  change_plan.scene_level_changes.any fun change =>
    pyIn (pyUpper scene.act) (pyUpper change.placement)

/-! ## Lemmas about act assignment -/

theorem assignFrom_length (total : Nat) (n : Nat) (l : List Scene) :
    (assignFrom total n l).length = l.length := by
  induction l generalizing n with
  | nil => simp [assignFrom]
  | cons sc rest ih => simp [assignFrom, ih]

theorem assignFrom_get? (total n k : Nat) (l : List Scene) :
    (assignFrom total n l).get? k =
      (l.get? k).map fun sc => { sc with act := actFor (n + k) total } := by
  induction l generalizing n k with
  | nil => simp [assignFrom]
  | cons sc rest ih =>
    cases k with
    | zero => simp [assignFrom]
    | succ k =>
      show (assignFrom total (n + 1) rest).get? k =
        (rest.get? k).map fun sc => { sc with act := actFor (n + (k + 1)) total }
      rw [ih (n + 1) k]
      have harith : n + 1 + k = n + (k + 1) := by omega
      rw [harith]

theorem assign_acts_get? (sp : Screenplay) (k : Nat) :
    (assign_acts sp).scenes.get? k =
      (sp.scenes.get? k).map fun sc => { sc with act := actFor k sp.scenes.length } := by
  simpa [assign_acts] using assignFrom_get? sp.scenes.length 0 k sp.scenes

theorem assign_acts_length (sp : Screenplay) :
    (assign_acts sp).scenes.length = sp.scenes.length := by
  simp [assign_acts, assignFrom_length]

theorem assign_acts_idem (sp : Screenplay) :
    assign_acts (assign_acts sp) = assign_acts sp := by
  have h2 : (assign_acts (assign_acts sp)).scenes = (assign_acts sp).scenes := by
    apply List.ext_get?
    intro k
    rw [assign_acts_get? (assign_acts sp) k, assign_acts_get? sp k, assign_acts_length sp]
    cases hk : sp.scenes.get? k with
    | none => simp
    | some sc => simp
  show (⟨(assign_acts (assign_acts sp)).scenes⟩ : Screenplay) = ⟨(assign_acts sp).scenes⟩
  rw [h2]

/-! ## Claim theorems: placement normalization, scoping, act assignment -/

/-- Claim C10: normalize_placement is total over strings and always returns
one of the five closed-set values; it returns Entire Screenplay for empty or
unmatched input; and because the rules are tested in order with substring
matching, every input containing the text act i case-insensitively, in
particular the inputs Act II and Act III, is mapped to Act I. -/
theorem claim_C10 (s : String) :
    (normalize_placement s = "Act I" ∨ normalize_placement s = "Act II" ∨
     normalize_placement s = "Act III" ∨ normalize_placement s = "Entire Screenplay" ∨
     normalize_placement s = "Specific Scene")
    ∧ (s = "" → normalize_placement s = "Entire Screenplay")
    ∧ (pyIn "act i" (pyLower s) = true → normalize_placement s = "Act I")
    ∧ (pyIn "act i" (pyLower s) = false → pyIn "act ii" (pyLower s) = false →
       pyIn "act iii" (pyLower s) = false → pyIn "entire" (pyLower s) = false →
       pyIn "whole" (pyLower s) = false → pyIn "throughout" (pyLower s) = false →
       pyIn "scene" (pyLower s) = false →
       normalize_placement s = "Entire Screenplay")
    ∧ normalize_placement "Act II" = "Act I"
    ∧ normalize_placement "Act III" = "Act I" := by
  refine ⟨?_, ?_, ?_, ?_, by decide, by decide⟩
  · unfold normalize_placement
    repeat' split
    all_goals decide
  · intro h
    subst h
    decide
  · intro h
    by_cases hs : s = ""
    · subst hs
      exact absurd h (by decide)
    · unfold normalize_placement
      rw [if_neg hs, if_pos h]
  · intro h1 h2 h3 h4 h5 h6 h7
    by_cases hs : s = ""
    · subst hs
      decide
    · simp [normalize_placement, hs, h1, h2, h3, h4, h5, h6, h7]

/-- Claim C10 witness: the conditional clauses of claim_C10 instantiated at
the concrete input Act III. -/
theorem claim_C10_witness : normalize_placement "Act III" = "Act I" :=
  (claim_C10 "Act III").2.2.1 (by decide)

/-- Claim C1 (code bug evidence): the code of scene_needs_rewrite tests
whether the uppercased scene act is a substring of the uppercased placement.
Hence a change placed Entire Screenplay matches no scene at all, while a
change placed Act II or Act III does match a scene of act Act I, both in
contradiction with the claimed equality semantics.  The three conjuncts
evaluate the code at such inputs. -/
theorem claim_C1_code_eval :
    scene_needs_rewrite ⟨"S001", "INT. ROOM - DAY", [], "Act I"⟩
        ⟨[⟨"C1", "Make it rain", "Entire Screenplay"⟩]⟩ = false
    ∧ scene_needs_rewrite ⟨"S001", "INT. ROOM - DAY", [], "Act I"⟩
        ⟨[⟨"C1", "Make it rain", "Act II"⟩]⟩ = true
    ∧ scene_needs_rewrite ⟨"S002", "EXT. STREET - NIGHT", [], "Act II"⟩
        ⟨[⟨"C1", "Make it rain", "Act III"⟩]⟩ = true := by
  exact ⟨by decide, by decide, by decide⟩

/-- Claim C5: assign_acts gives scene index i of a non-empty screenplay the
act determined by ratio = i / max(total, 1): below one quarter Act I, from
one quarter below three quarters Act II, from three quarters Act III; and
recomputing on an unchanged scene list yields the same assignment. -/
theorem claim_C5 (sp : Screenplay) (i : Nat) (sc : Scene)
    (htot : 1 ≤ sp.scenes.length)
    (hget : (assign_acts sp).scenes.get? i = some sc) :
    (((i : ℚ) / (max sp.scenes.length 1 : ℚ) < 1/4) → sc.act = "Act I")
    ∧ ((1/4 ≤ (i : ℚ) / (max sp.scenes.length 1 : ℚ) ∧
        (i : ℚ) / (max sp.scenes.length 1 : ℚ) < 3/4) → sc.act = "Act II")
    ∧ ((3/4 ≤ (i : ℚ) / (max sp.scenes.length 1 : ℚ)) → sc.act = "Act III")
    ∧ assign_acts (assign_acts sp) = assign_acts sp := by
  rw [assign_acts_get? sp i] at hget
  cases hsp : sp.scenes.get? i with
  | none => rw [hsp] at hget; exact absurd hget (by simp)
  | some sc0 =>
    rw [hsp] at hget
    have hact : sc.act = actFor i sp.scenes.length := by
      have : ({ sc0 with act := actFor i sp.scenes.length } : Scene) = sc := by
        simpa using hget
      rw [← this]
    refine ⟨?_, ?_, ?_, assign_acts_idem sp⟩
    · intro h
      rw [hact]
      unfold actFor
      rw [if_pos h]
    · rintro ⟨hge, hlt⟩
      rw [hact]
      unfold actFor
      rw [if_neg (by exact not_lt.mpr hge), if_pos hlt]
    · intro hge
      rw [hact]
      unfold actFor
      have h14 : ¬ ((i : ℚ) / (max sp.scenes.length 1 : ℚ) < 1/4) := by
        refine not_lt.mpr ?_
        refine le_trans ?_ hge
        norm_num
      have h34 : ¬ ((i : ℚ) / (max sp.scenes.length 1 : ℚ) < 3/4) := not_lt.mpr hge
      rw [if_neg h14, if_neg h34]

/-- Concrete four-scene screenplay used by several witnesses. -/
def spFour : Screenplay :=
  ⟨[⟨"S001", "H1", [], ""⟩, ⟨"S002", "H2", [], ""⟩,
    ⟨"S003", "H3", [], ""⟩, ⟨"S004", "H4", [], ""⟩]⟩

/-- Claim C5 witness: on a four-scene screenplay, scene index 1 sits exactly
on the one-quarter boundary and receives Act II. -/
theorem claim_C5_witness :
    (⟨"S002", "H2", [], "Act II"⟩ : Scene).act = "Act II"
    ∧ assign_acts (assign_acts spFour) = assign_acts spFour := by
  have hact : actFor 1 4 = "Act II" := by rw [actFor_eq]; decide
  have hget : (assign_acts spFour).scenes.get? 1 = some ⟨"S002", "H2", [], "Act II"⟩ := by
    rw [assign_acts_get? spFour 1]
    show some ({ scene_id := "S002", heading := "H2", elements := [],
                 act := actFor 1 4 } : Scene) = _
    rw [hact]
  have h := claim_C5 spFour 1 ⟨"S002", "H2", [], "Act II"⟩ (by decide) hget
  refine ⟨h.2.1 ⟨?_, ?_⟩, h.2.2.2⟩
  · show (1/4 : ℚ) ≤ (1 : ℚ) / (max (4 : Nat) 1 : ℚ)
    norm_num
  · show ((1 : ℚ) / (max (4 : Nat) 1 : ℚ)) < 3/4
    norm_num

/-! ## Canonical parser (src/services/rewrite_to_fountain.py:60)

A paragraph carries the Type attribute (attrib.get with default empty
string) and the text of its Text node (empty when the node is missing or
its text is None). -/

structure Paragraph where
  ptype : String
  text : String
deriving DecidableEq, Repr

/-- Python f-string S followed by the counter zero-padded to width 3. -/
def pad3 (s : String) : String :=
  if s.length < 3 then (⟨List.replicate (3 - s.length) '0'⟩ : String) ++ s else s

def sceneIdOf (n : Nat) : String := "S" ++ pad3 (toString n)

/-- Parser loop state: emitted scenes, the currently open scene, and the
scene counter (starting at 1). -/
structure PState where
  scenes : List Scene
  cur : Option Scene
  ctr : Nat
deriving DecidableEq, Repr

/-- One iteration of the paragraph loop of parse_fdx_to_canonical: skip
blank text; a Scene Heading flushes the open scene and opens a fresh one
with the next sequential id; any other paragraph becomes an element of the
open scene and is dropped when no scene is open. -/
def parseStep (st : PState) (p : Paragraph) : PState :=
  if pyStrip p.text = "" then st
  else if pyStrip p.ptype = "Scene Heading" then
    ⟨st.scenes ++ st.cur.toList,
     some ⟨sceneIdOf st.ctr, pyStrip p.text, [], ""⟩,
     st.ctr + 1⟩
  else
    match st.cur with
    | some sc =>
      ⟨st.scenes,
       some { sc with elements := sc.elements ++ [⟨pyStrip p.ptype, pyStrip p.text⟩] },
       st.ctr⟩
    | none => st

/-- parse_fdx_to_canonical: fold the loop over the paragraphs and flush the
final open scene. -/
def parse_fdx_to_canonical (paras : List Paragraph) : Screenplay :=
  let st := paras.foldl parseStep ⟨[], none, 1⟩
  ⟨st.scenes ++ st.cur.toList⟩

/-- A paragraph that opens a scene: tagged Scene Heading with text that is
non-empty after stripping. -/
def isNonEmptyHeading (p : Paragraph) : Bool :=
  decide (pyStrip p.ptype = "Scene Heading") && decide (pyStrip p.text ≠ "")

def countHeadings (paras : List Paragraph) : Nat :=
  (paras.filter isNonEmptyHeading).length

/-- The scene list a parser state denotes: emitted scenes plus the open one. -/
def outScenes (st : PState) : List Scene := st.scenes ++ st.cur.toList

/-- Parser invariant: every produced scene carries the sequential id of its
1-based position, and the counter is one past the number of scenes. -/
def goodState (st : PState) : Prop :=
  (∀ k sc, (outScenes st).get? k = some sc → sc.scene_id = sceneIdOf (k + 1))
  ∧ st.ctr = (outScenes st).length + 1

theorem outScenes_mk (a : List Scene) (c : Option Scene) (n : Nat) :
    outScenes ⟨a, c, n⟩ = a ++ c.toList := rfl

theorem parseStep_length (st : PState) (p : Paragraph) :
    (outScenes (parseStep st p)).length =
      (outScenes st).length + (if isNonEmptyHeading p then 1 else 0) := by
  by_cases ht : pyStrip p.text = ""
  · have hh : isNonEmptyHeading p = false := by simp [isNonEmptyHeading, ht]
    unfold parseStep
    rw [if_pos ht, hh]
    simp
  · by_cases hp : pyStrip p.ptype = "Scene Heading"
    · have hh : isNonEmptyHeading p = true := by simp [isNonEmptyHeading, ht, hp]
      unfold parseStep
      rw [if_neg ht, if_pos hp, hh, outScenes_mk]
      simp [outScenes]
      omega
    · have hh : isNonEmptyHeading p = false := by simp [isNonEmptyHeading, hp]
      unfold parseStep
      rw [if_neg ht, if_neg hp, hh]
      cases hcur : st.cur with
      | some sc => simp [outScenes, hcur]
      | none => simp

/-- Appending one scene whose id is the next sequential id preserves the
parser invariant. -/
theorem good_append (l : List Scene) (sc : Scene) (n : Nat)
    (hid : ∀ k sc0, l.get? k = some sc0 → sc0.scene_id = sceneIdOf (k + 1))
    (hn : n = l.length + 1) (hsc : sc.scene_id = sceneIdOf n) :
    ∀ k sc0, (l ++ [sc]).get? k = some sc0 → sc0.scene_id = sceneIdOf (k + 1) := by
  intro k sc0 hk
  have hbound : k < l.length + 1 := by
    have hb := (List.get?_eq_some.mp hk).1
    simpa using hb
  rcases Nat.lt_or_ge k l.length with hlt | hge
  · rw [List.get?_append hlt] at hk
    exact hid k sc0 hk
  · have hk' : k = l.length := by omega
    subst hk'
    rw [List.get?_concat_length] at hk
    rw [← Option.some.inj hk, hsc, hn]

theorem parseStep_good (st : PState) (p : Paragraph) (h : goodState st) :
    goodState (parseStep st p) := by
  obtain ⟨hid, hctr⟩ := h
  unfold parseStep
  by_cases ht : pyStrip p.text = ""
  · rw [if_pos ht]; exact ⟨hid, hctr⟩
  · rw [if_neg ht]
    by_cases hp : pyStrip p.ptype = "Scene Heading"
    · rw [if_pos hp]
      have hout : outScenes ⟨st.scenes ++ st.cur.toList,
          some ⟨sceneIdOf st.ctr, pyStrip p.text, [], ""⟩, st.ctr + 1⟩
          = outScenes st ++ [⟨sceneIdOf st.ctr, pyStrip p.text, [], ""⟩] := by
        rw [outScenes_mk]
        simp [outScenes]
      constructor
      · intro k sc hk
        rw [hout] at hk
        exact good_append (outScenes st) _ st.ctr hid hctr rfl k sc hk
      · show st.ctr + 1 = _ + 1
        rw [hout]
        simp [hctr]
    · rw [if_neg hp]
      cases hcur : st.cur with
      | none => exact ⟨hid, hctr⟩
      | some sc0 =>
        have hout0 : outScenes st = st.scenes ++ [sc0] := by
          simp [outScenes, hcur]
        have hout : outScenes ⟨st.scenes,
            some { sc0 with elements := sc0.elements ++ [⟨pyStrip p.ptype, pyStrip p.text⟩] },
            st.ctr⟩
            = st.scenes ++ [{ sc0 with
                elements := sc0.elements ++ [⟨pyStrip p.ptype, pyStrip p.text⟩] }] := by
          rw [outScenes_mk]
          simp
        have hold : sc0.scene_id = sceneIdOf (st.scenes.length + 1) := by
          apply hid st.scenes.length sc0
          rw [hout0, List.get?_concat_length]
        constructor
        · intro k sc hk
          rw [hout] at hk
          refine good_append st.scenes
            { sc0 with elements := sc0.elements ++ [⟨pyStrip p.ptype, pyStrip p.text⟩] }
            (st.scenes.length + 1) ?_ rfl hold k sc hk
          intro k0 sck hk0
          apply hid k0 sck
          rw [hout0, List.get?_append]
          · exact hk0
          · exact (List.get?_eq_some.mp hk0).1
        · show st.ctr = _ + 1
          rw [hout]
          rw [hout0] at hctr
          simpa using hctr

theorem foldl_parseStep_length (paras : List Paragraph) (st : PState) :
    (outScenes (paras.foldl parseStep st)).length =
      (outScenes st).length + countHeadings paras := by
  induction paras generalizing st with
  | nil => simp [countHeadings]
  | cons p rest ih =>
    show (outScenes (rest.foldl parseStep (parseStep st p))).length = _
    rw [ih (parseStep st p), parseStep_length st p]
    unfold countHeadings
    by_cases hp : isNonEmptyHeading p
    · simp [hp]
      omega
    · simp [hp]

theorem foldl_parseStep_good (paras : List Paragraph) (st : PState)
    (h : goodState st) : goodState (paras.foldl parseStep st) := by
  induction paras generalizing st with
  | nil => exact h
  | cons p rest ih =>
    show goodState (rest.foldl parseStep (parseStep st p))
    exact ih (parseStep st p) (parseStep_good st p h)

/-- Claim C8: the canonical parser produces exactly one scene per Scene
Heading paragraph with non-empty stripped text (the fixed policy of this
parser excludes no leading heading), every produced scene carries the
sequential id of its 1-based position, and a document with zero scene
headings yields an empty scene list. -/
theorem claim_C8 (paras : List Paragraph) :
    (parse_fdx_to_canonical paras).scenes.length = countHeadings paras
    ∧ (∀ k sc, (parse_fdx_to_canonical paras).scenes.get? k = some sc →
        sc.scene_id = sceneIdOf (k + 1))
    ∧ (countHeadings paras = 0 → (parse_fdx_to_canonical paras).scenes = []) := by
  have hscenes : (parse_fdx_to_canonical paras).scenes
      = outScenes (paras.foldl parseStep ⟨[], none, 1⟩) := by
    simp [parse_fdx_to_canonical, outScenes]
  have hinit : goodState ⟨[], none, 1⟩ := by
    constructor
    · intro k sc hk
      simp [outScenes] at hk
    · simp [outScenes]
  have hlen : (parse_fdx_to_canonical paras).scenes.length = countHeadings paras := by
    rw [hscenes, foldl_parseStep_length paras ⟨[], none, 1⟩]
    simp [outScenes]
  refine ⟨hlen, ?_, ?_⟩
  · intro k sc hk
    have hgood := foldl_parseStep_good paras ⟨[], none, 1⟩ hinit
    exact hgood.1 k sc (by rw [← hscenes]; exact hk)
  · intro h0
    have : (parse_fdx_to_canonical paras).scenes.length = 0 := by rw [hlen, h0]
    exact List.length_eq_zero.mp this

/-- Claim C8 witness: a concrete document with a leading Action paragraph
(dropped), two non-empty headings, one blank heading (skipped) and body
paragraphs parses to exactly two scenes with ids S001 and S002. -/
theorem claim_C8_witness :
    (parse_fdx_to_canonical
      [⟨"Action", "Dropped preamble."⟩,
       ⟨"Scene Heading", "INT. ROOM - DAY"⟩,
       ⟨"Action", "He sits."⟩,
       ⟨"Scene Heading", "   "⟩,
       ⟨"Scene Heading", "EXT. STREET - NIGHT"⟩,
       ⟨"Dialogue", "She walks."⟩]).scenes.length = 2
    ∧ "S001" = sceneIdOf 1 ∧ "S002" = sceneIdOf 2 := by
  have h := claim_C8
      [⟨"Action", "Dropped preamble."⟩,
       ⟨"Scene Heading", "INT. ROOM - DAY"⟩,
       ⟨"Action", "He sits."⟩,
       ⟨"Scene Heading", "   "⟩,
       ⟨"Scene Heading", "EXT. STREET - NIGHT"⟩,
       ⟨"Dialogue", "She walks."⟩]
  refine ⟨?_, ?_, ?_⟩
  · rw [h.1]
    decide
  · have := h.2.1 0 ⟨"S001", "INT. ROOM - DAY", [⟨"Action", "He sits."⟩], ""⟩ (by decide)
    simpa using this.symm
  · have := h.2.1 1 ⟨"S002", "EXT. STREET - NIGHT", [⟨"Dialogue", "She walks."⟩], ""⟩ (by decide)
    simpa using this.symm

/-! ## Gemini scene rewrite (src/services/rewrite_to_fountain.py:131)

The external call and json.loads are abstracted into an outcome per task:
either an exception was raised inside the task (transport error, invalid
JSON, a payload on which len or indexing raises), or a JSON list was
obtained.  A list entry is either a JSON string or some other JSON value. -/

inductive JVal where
  | jstr (s : String)
  | jother
deriving DecidableEq, Repr

/-- The update loop of rewrite_scene_with_gemini: element i takes the text
of entry i when that entry exists and is a string, and is kept otherwise. -/
def rwElems (new_texts : List JVal) : Nat → List Element → List Element
  | _, [] => []
  | i, el :: rest =>
    (match new_texts.get? i with
     | some (JVal.jstr s) => { el with text := s }
     | _ => el) :: rwElems new_texts (i + 1) rest

/-- The pure part of rewrite_scene_with_gemini: deep-copy the scene and
overwrite element texts from the parsed response list. -/
def rewrite_scene_with_gemini (scene : Scene) (new_texts : List JVal) : Scene :=
  { scene with elements := rwElems new_texts 0 scene.elements }

/-! ## Diff generation (src/services/rewrite_to_fountain.py:180)

The unified_diff field of each record, a difflib rendering derived from the
before and after texts, is not modelled. -/

structure ElementDiff where
  element_index : Nat
  type : String
  before : String
  after : String
deriving DecidableEq, Repr

/-- The loop of diff_scene: zip the element lists and record every index
whose texts differ. -/
def diffElems : Nat → List Element → List Element → List ElementDiff
  | _, [], _ => []
  | _, _ :: _, [] => []
  | i, o :: os, r :: rs =>
    (if o.text ≠ r.text then [⟨i, o.type, o.text, r.text⟩] else [])
      ++ diffElems (i + 1) os rs

def diff_scene (original rewritten : Scene) : List ElementDiff :=
  diffElems 0 original.elements rewritten.elements

/-! ## Fountain serialization (src/services/rewrite_to_fountain.py:205) -/

/-- The lines one element contributes: skip blank text, uppercase Character
cues, parenthesize Parentheticals, pass everything else through, each
followed by a blank separator line. -/
def elementLines (el : Element) : List String :=
  if pyStrip el.text = "" then []
  else if el.type = "Action" then [pyStrip el.text, ""]
  else if el.type = "Character" then [pyUpper (pyStrip el.text), ""]
  else if el.type = "Dialogue" then [pyStrip el.text, ""]
  else if el.type = "Parenthetical" then ["(" ++ pyStrip el.text ++ ")", ""]
  else [pyStrip el.text, ""]

/-- The lines of one scene: uppercased heading, blank line, element lines,
extra blank line. -/
def sceneLines (scene : Scene) : List String :=
  [pyUpper scene.heading, ""] ++ (scene.elements.map elementLines).join ++ [""]

/-- Python str.join with a newline separator. -/
def joinNL : List String → String
  | [] => ""
  | [x] => x
  | x :: xs => x ++ "\n" ++ joinNL xs

def screenplay_to_fountain (sp : Screenplay) : String :=
  pyStrip (joinNL (sp.scenes.map sceneLines).join) ++ "\n"

/-! ## Scene selection in rewrite_fdx_with_plan
(src/services/rewrite_to_fountain.py:260) -/

/-- Python truthiness of the optional 1-based scene bounds. -/
def truthy : Option Int → Bool
  | none => false
  | some n => n != 0

/-- The range setup of rewrite_fdx_with_plan: with both bounds truthy, the
clamped 0-based window and no act filter; otherwise the whole screenplay
with the act filter. -/
def rangeParams (total : Int) (sd ed : Option Int) : Int × Int × Bool :=
  if truthy sd && truthy ed then
    (max (sd.getD 0 - 1) 0, min (ed.getD 0 - 1) (total - 1), false)
  else (0, total - 1, true)

/-- The task-collection loop: scene index i becomes a task when it lies in
the window and, on the act-filtered path, scene_needs_rewrite holds. -/
def selectFrom (plan : ChangePlan) (a b : Int) (useFilter : Bool) :
    Nat → List Scene → List Nat
  | _, [] => []
  | i, sc :: rest =>
    if a ≤ (i : Int) ∧ (i : Int) ≤ b ∧ (!useFilter || scene_needs_rewrite sc plan) then
      i :: selectFrom plan a b useFilter (i + 1) rest
    else selectFrom plan a b useFilter (i + 1) rest

def selectedIndices (canonical : Screenplay) (plan : ChangePlan)
    (sd ed : Option Int) : List Nat :=
  match rangeParams (canonical.scenes.length : Int) sd ed with
  | (a, b, f) => selectFrom plan a b f 0 canonical.scenes

/-! ## Merge of rewrite results (src/services/rewrite_to_fountain.py:278) -/

structure SceneChanged where
  scene_index : Nat
  scene_id : String
  heading : String
  diffs : List ElementDiff
deriving DecidableEq, Repr

structure DiffReport where
  start_scene : Option Int
  end_scene : Option Int
  scenes_changed : List SceneChanged
deriving DecidableEq, Repr

/-- Merging one settled task, in gather order: an exception is skipped; a
parsed response is re-applied to the captured scene, its diff recorded when
non-empty, and the scene slot overwritten at its original index. -/
def mergeStep (canonical : Screenplay) (oracle : Nat → Except Unit (List JVal))
    (st : Screenplay × List SceneChanged) (idx : Nat) : Screenplay × List SceneChanged :=
  match oracle idx with
  | Except.error _ => st
  | Except.ok new_texts =>
    match canonical.scenes.get? idx with
    | none => st
    | some original =>
      let rewritten := rewrite_scene_with_gemini original new_texts
      let diffs := diff_scene original rewritten
      (⟨st.1.scenes.set idx rewritten⟩,
       if diffs = [] then st.2
       else st.2 ++ [⟨idx + 1, original.scene_id, original.heading, diffs⟩])

def runMerge (canonical : Screenplay) (tasks : List Nat)
    (oracle : Nat → Except Unit (List JVal)) : Screenplay × List SceneChanged :=
  tasks.foldl (mergeStep canonical oracle) (canonical, [])

/-- The value rewrite_fdx_with_plan returns.  The Python function returns
the dict with fountain_text and diff_report; the merged screenplay whose
serialization fountain_text is, is exposed as a third field so invariants
can speak about it. -/
structure RunResult where
  fountain_text : String
  diff_report : DiffReport
  updated : Screenplay
deriving DecidableEq, Repr

/-- rewrite_fdx_with_plan on an already parsed screenplay: assign acts,
collect candidate indices, merge the settled tasks, serialize. -/
def rewrite_fdx_with_plan (canonical0 : Screenplay) (change_plan : ChangePlan)
    (start_scene end_scene : Option Int)
    (oracle : Nat → Except Unit (List JVal)) : RunResult :=
  ⟨screenplay_to_fountain
      (runMerge (assign_acts canonical0)
        (selectedIndices (assign_acts canonical0) change_plan start_scene end_scene)
        oracle).1,
   ⟨start_scene, end_scene,
    (runMerge (assign_acts canonical0)
      (selectedIndices (assign_acts canonical0) change_plan start_scene end_scene)
      oracle).2⟩,
   (runMerge (assign_acts canonical0)
     (selectedIndices (assign_acts canonical0) change_plan start_scene end_scene)
     oracle).1⟩

/-! ## Lemmas about the scene rewrite -/

theorem rwElems_length (texts : List JVal) (n : Nat) (l : List Element) :
    (rwElems texts n l).length = l.length := by
  induction l generalizing n with
  | nil => simp [rwElems]
  | cons el rest ih => simp [rwElems, ih]

theorem rwElems_get? (texts : List JVal) (n k : Nat) (l : List Element) :
    (rwElems texts n l).get? k =
      (l.get? k).map fun el =>
        match texts.get? (n + k) with
        | some (JVal.jstr s) => { el with text := s }
        | _ => el := by
  induction l generalizing n k with
  | nil => simp [rwElems]
  | cons el rest ih =>
    cases k with
    | zero => simp [rwElems]
    | succ k =>
      show (rwElems texts (n + 1) rest).get? k = _
      rw [ih (n + 1) k]
      have harith : n + 1 + k = n + (k + 1) := by omega
      rw [harith]
      rfl

theorem rewrite_scene_fields (scene : Scene) (texts : List JVal) :
    (rewrite_scene_with_gemini scene texts).scene_id = scene.scene_id
    ∧ (rewrite_scene_with_gemini scene texts).heading = scene.heading
    ∧ (rewrite_scene_with_gemini scene texts).act = scene.act
    ∧ (rewrite_scene_with_gemini scene texts).elements.length = scene.elements.length :=
  ⟨rfl, rfl, rfl, rwElems_length texts 0 scene.elements⟩

theorem rewrite_scene_type (scene : Scene) (texts : List JVal) (k : Nat) :
    ((rewrite_scene_with_gemini scene texts).elements.get? k).map Element.type
      = (scene.elements.get? k).map Element.type := by
  show ((rwElems texts 0 scene.elements).get? k).map Element.type = _
  rw [rwElems_get? texts 0 k scene.elements]
  cases scene.elements.get? k with
  | none => rfl
  | some el =>
    cases htx : texts.get? (0 + k) with
    | none => rfl
    | some v => cases v <;> rfl

theorem rewrite_scene_keep (scene : Scene) (texts : List JVal) (k : Nat)
    (h : texts.length ≤ k ∨ texts.get? k = some JVal.jother) :
    (rewrite_scene_with_gemini scene texts).elements.get? k = scene.elements.get? k := by
  show (rwElems texts 0 scene.elements).get? k = _
  rw [rwElems_get? texts 0 k scene.elements]
  have htx : texts.get? (0 + k) = none ∨ texts.get? (0 + k) = some JVal.jother := by
    rcases h with h | h
    · exact Or.inl (List.get?_eq_none.mpr (by omega))
    · right
      rw [Nat.zero_add]
      exact h
  cases scene.elements.get? k with
  | none => rfl
  | some el =>
    rcases htx with htx | htx
    · rw [htx]
      rfl
    · rw [htx]
      rfl

/-! ## List helpers for the merge -/

theorem list_map_set {α β : Type} (f : α → β) (l : List α) (n : Nat) (a : α) :
    (l.set n a).map f = (l.map f).set n (f a) := by
  induction l generalizing n with
  | nil => simp
  | cons x xs ih =>
    cases n with
    | zero => simp
    | succ n => simp [List.set, ih]

theorem list_set_self {α : Type} (l : List α) (n : Nat) (a : α)
    (h : l.get? n = some a) : l.set n a = l := by
  induction l generalizing n with
  | nil => simp
  | cons x xs ih =>
    cases n with
    | zero =>
      have : x = a := by simpa using h
      simp [List.set, this]
    | succ n =>
      have : xs.get? n = some a := by simpa using h
      simp [List.set, ih n this]

/-! ## Lemmas about selection -/

theorem mem_selectFrom (plan : ChangePlan) (a b : Int) (f : Bool)
    (n : Nat) (l : List Scene) (j : Nat) (hj : j ∈ selectFrom plan a b f n l) :
    n ≤ j ∧ j < n + l.length := by
  induction l generalizing n with
  | nil => simp [selectFrom] at hj
  | cons sc rest ih =>
    unfold selectFrom at hj
    split at hj
    · rcases List.mem_cons.mp hj with hj | hj
      · subst hj
        simp
      · have := ih (n + 1) hj
        constructor <;> [omega; (simp; omega)]
    · have := ih (n + 1) hj
      constructor <;> [omega; (simp; omega)]

theorem selectFrom_nil_of_empty (plan : ChangePlan) (a b : Int) (f : Bool)
    (hab : b < a) (n : Nat) (l : List Scene) :
    selectFrom plan a b f n l = [] := by
  induction l generalizing n with
  | nil => rfl
  | cons sc rest ih =>
    unfold selectFrom
    rw [if_neg, ih (n + 1)]
    rintro ⟨h1, h2, -⟩
    omega

theorem mem_selectedIndices (canonical : Screenplay) (plan : ChangePlan)
    (sd ed : Option Int) (j : Nat)
    (hj : j ∈ selectedIndices canonical plan sd ed) :
    j < canonical.scenes.length := by
  unfold selectedIndices at hj
  have := mem_selectFrom plan _ _ _ 0 canonical.scenes j hj
  omega

/-! ## Lemmas about the merge fold -/

theorem mergeStep_fst_length (canonical : Screenplay)
    (oracle : Nat → Except Unit (List JVal))
    (st : Screenplay × List SceneChanged) (idx : Nat) :
    (mergeStep canonical oracle st idx).1.scenes.length = st.1.scenes.length := by
  unfold mergeStep
  cases oracle idx with
  | error e => rfl
  | ok texts =>
    cases canonical.scenes.get? idx with
    | none => rfl
    | some original => simp

theorem runMerge_aux_length (canonical : Screenplay)
    (oracle : Nat → Except Unit (List JVal)) (tasks : List Nat)
    (st : Screenplay × List SceneChanged) :
    (tasks.foldl (mergeStep canonical oracle) st).1.scenes.length
      = st.1.scenes.length := by
  induction tasks generalizing st with
  | nil => rfl
  | cons idx rest ih =>
    show (rest.foldl (mergeStep canonical oracle) (mergeStep canonical oracle st idx)).1.scenes.length = _
    rw [ih (mergeStep canonical oracle st idx), mergeStep_fst_length]

theorem runMerge_length (canonical : Screenplay) (tasks : List Nat)
    (oracle : Nat → Except Unit (List JVal)) :
    (runMerge canonical tasks oracle).1.scenes.length = canonical.scenes.length :=
  runMerge_aux_length canonical oracle tasks (canonical, [])

theorem mergeStep_get?_of_error (canonical : Screenplay)
    (oracle : Nat → Except Unit (List JVal))
    (st : Screenplay × List SceneChanged) (idx i : Nat)
    (hi : oracle i = Except.error ()) :
    (mergeStep canonical oracle st idx).1.scenes.get? i = st.1.scenes.get? i := by
  unfold mergeStep
  cases ho : oracle idx with
  | error e => rfl
  | ok texts =>
    cases canonical.scenes.get? idx with
    | none => rfl
    | some original =>
      have hne : idx ≠ i := by
        intro hcontra
        subst hcontra
        rw [hi] at ho
        exact Except.noConfusion ho
      simp only []
      exact List.get?_set_ne _ _ hne

theorem runMerge_aux_get?_of_error (canonical : Screenplay)
    (oracle : Nat → Except Unit (List JVal)) (tasks : List Nat)
    (st : Screenplay × List SceneChanged) (i : Nat)
    (hi : oracle i = Except.error ()) :
    (tasks.foldl (mergeStep canonical oracle) st).1.scenes.get? i
      = st.1.scenes.get? i := by
  induction tasks generalizing st with
  | nil => rfl
  | cons idx rest ih =>
    show (rest.foldl (mergeStep canonical oracle) (mergeStep canonical oracle st idx)).1.scenes.get? i = _
    rw [ih (mergeStep canonical oracle st idx),
        mergeStep_get?_of_error canonical oracle st idx i hi]

theorem runMerge_get?_of_error (canonical : Screenplay) (tasks : List Nat)
    (oracle : Nat → Except Unit (List JVal)) (i : Nat)
    (hi : oracle i = Except.error ()) :
    (runMerge canonical tasks oracle).1.scenes.get? i = canonical.scenes.get? i :=
  runMerge_aux_get?_of_error canonical oracle tasks (canonical, []) i hi

theorem mergeStep_map (canonical : Screenplay)
    (oracle : Nat → Except Unit (List JVal)) {α : Type} (f : Scene → α)
    (hf : ∀ sc texts, f (rewrite_scene_with_gemini sc texts) = f sc)
    (st : Screenplay × List SceneChanged) (idx : Nat)
    (hst : st.1.scenes.map f = canonical.scenes.map f) :
    (mergeStep canonical oracle st idx).1.scenes.map f = canonical.scenes.map f := by
  unfold mergeStep
  cases oracle idx with
  | error e => exact hst
  | ok texts =>
    cases hget : canonical.scenes.get? idx with
    | none => exact hst
    | some original =>
      show (st.1.scenes.set idx (rewrite_scene_with_gemini original texts)).map f = _
      rw [list_map_set, hf original texts, hst, list_set_self]
      rw [List.get?_map, hget]
      rfl

theorem runMerge_aux_map (canonical : Screenplay)
    (oracle : Nat → Except Unit (List JVal)) {α : Type} (f : Scene → α)
    (hf : ∀ sc texts, f (rewrite_scene_with_gemini sc texts) = f sc)
    (tasks : List Nat) (st : Screenplay × List SceneChanged)
    (hst : st.1.scenes.map f = canonical.scenes.map f) :
    (tasks.foldl (mergeStep canonical oracle) st).1.scenes.map f
      = canonical.scenes.map f := by
  induction tasks generalizing st with
  | nil => exact hst
  | cons idx rest ih =>
    exact ih (mergeStep canonical oracle st idx)
      (mergeStep_map canonical oracle f hf st idx hst)

theorem runMerge_map_id (canonical : Screenplay) (tasks : List Nat)
    (oracle : Nat → Except Unit (List JVal)) :
    (runMerge canonical tasks oracle).1.scenes.map Scene.scene_id
      = canonical.scenes.map Scene.scene_id :=
  runMerge_aux_map canonical oracle Scene.scene_id
    (fun sc texts => (rewrite_scene_fields sc texts).1) tasks (canonical, []) rfl

/-- Every report entry of the merge fold either pre-existed or records a
task index whose oracle succeeded on a valid scene slot. -/
theorem runMerge_aux_report (canonical : Screenplay)
    (oracle : Nat → Except Unit (List JVal)) (tasks : List Nat)
    (st : Screenplay × List SceneChanged) (e : SceneChanged)
    (he : e ∈ (tasks.foldl (mergeStep canonical oracle) st).2) :
    e ∈ st.2 ∨ ∃ idx ∈ tasks, ∃ texts original,
      oracle idx = Except.ok texts
      ∧ canonical.scenes.get? idx = some original
      ∧ e = ⟨idx + 1, original.scene_id, original.heading,
             diff_scene original (rewrite_scene_with_gemini original texts)⟩ := by
  induction tasks generalizing st with
  | nil => exact Or.inl he
  | cons idx rest ih =>
    have he2 := ih (mergeStep canonical oracle st idx) he
    rcases he2 with he2 | he2
    · unfold mergeStep at he2
      cases ho : oracle idx with
      | error err =>
        rw [ho] at he2
        exact Or.inl he2
      | ok texts =>
        rw [ho] at he2
        cases hget : canonical.scenes.get? idx with
        | none =>
          rw [hget] at he2
          exact Or.inl he2
        | some original =>
          rw [hget] at he2
          simp only [] at he2
          by_cases hd : diff_scene original (rewrite_scene_with_gemini original texts) = []
          · rw [if_pos hd] at he2
            exact Or.inl he2
          · rw [if_neg hd] at he2
            rcases List.mem_append.mp he2 with he3 | he3
            · exact Or.inl he3
            · right
              refine ⟨idx, List.mem_cons_self idx rest, texts, original, ho, hget, ?_⟩
              simpa using he3
    · right
      obtain ⟨idx0, hmem, rest0⟩ := he2
      exact ⟨idx0, List.mem_cons_of_mem idx hmem, rest0⟩

theorem mergeStep_report_mono (canonical : Screenplay)
    (oracle : Nat → Except Unit (List JVal))
    (st : Screenplay × List SceneChanged) (idx : Nat) (e : SceneChanged)
    (he : e ∈ st.2) : e ∈ (mergeStep canonical oracle st idx).2 := by
  unfold mergeStep
  cases oracle idx with
  | error err => exact he
  | ok texts =>
    cases canonical.scenes.get? idx with
    | none => exact he
    | some original =>
      simp only []
      split
      · exact he
      · exact List.mem_append_left _ he

theorem runMerge_aux_report_mono (canonical : Screenplay)
    (oracle : Nat → Except Unit (List JVal)) (tasks : List Nat)
    (st : Screenplay × List SceneChanged) (e : SceneChanged)
    (he : e ∈ st.2) : e ∈ (tasks.foldl (mergeStep canonical oracle) st).2 := by
  induction tasks generalizing st with
  | nil => exact he
  | cons idx rest ih =>
    exact ih (mergeStep canonical oracle st idx)
      (mergeStep_report_mono canonical oracle st idx e he)

/-- A task whose oracle succeeded with a non-empty diff contributes a report
entry carrying its 1-based scene index. -/
theorem runMerge_aux_report_present (canonical : Screenplay)
    (oracle : Nat → Except Unit (List JVal)) (tasks : List Nat)
    (st : Screenplay × List SceneChanged) (i : Nat) (texts : List JVal)
    (original : Scene)
    (hmem : i ∈ tasks)
    (ho : oracle i = Except.ok texts)
    (hget : canonical.scenes.get? i = some original)
    (hd : diff_scene original (rewrite_scene_with_gemini original texts) ≠ []) :
    ∃ e ∈ (tasks.foldl (mergeStep canonical oracle) st).2, e.scene_index = i + 1 := by
  induction tasks generalizing st with
  | nil => simp at hmem
  | cons idx rest ih =>
    rcases List.mem_cons.mp hmem with hi | hi
    · subst hi
      show ∃ e ∈ (rest.foldl (mergeStep canonical oracle)
          (mergeStep canonical oracle st i)).2, e.scene_index = i + 1
      refine ⟨⟨i + 1, original.scene_id, original.heading,
               diff_scene original (rewrite_scene_with_gemini original texts)⟩, ?_, rfl⟩
      apply runMerge_aux_report_mono canonical oracle rest (mergeStep canonical oracle st i)
      unfold mergeStep
      rw [ho, hget]
      simp only []
      rw [if_neg hd]
      exact List.mem_append_right _ (List.mem_singleton.mpr rfl)
    · exact ih (mergeStep canonical oracle st idx) hi

theorem assign_acts_map_id (sp : Screenplay) :
    (assign_acts sp).scenes.map Scene.scene_id = sp.scenes.map Scene.scene_id := by
  apply List.ext_get?
  intro n
  rw [List.get?_map, List.get?_map, assign_acts_get?]
  cases sp.scenes.get? n <;> rfl

/-! ## Claim theorems: orchestration -/

/-- Claim C6: the output scene sequence of rewrite_fdx_with_plan carries the
ids of the parsed input in the original document order, for every oracle
behaviour: rewriting may replace the elements of a scene but never its
position or id, because settled results are written back at their original
index. -/
theorem claim_C6 (canonical0 : Screenplay) (plan : ChangePlan)
    (sd ed : Option Int) (oracle : Nat → Except Unit (List JVal)) :
    (rewrite_fdx_with_plan canonical0 plan sd ed oracle).updated.scenes.map Scene.scene_id
      = canonical0.scenes.map Scene.scene_id
    ∧ (rewrite_fdx_with_plan canonical0 plan sd ed oracle).updated.scenes.length
      = canonical0.scenes.length := by
  constructor
  · show (runMerge (assign_acts canonical0)
      (selectedIndices (assign_acts canonical0) plan sd ed) oracle).1.scenes.map Scene.scene_id = _
    rw [runMerge_map_id]
    exact assign_acts_map_id canonical0
  · show (runMerge (assign_acts canonical0)
      (selectedIndices (assign_acts canonical0) plan sd ed) oracle).1.scenes.length = _
    rw [runMerge_length, assign_acts_length]

/-- Claim C2: failure isolation of the batch.  When a strict subset of the
candidate scenes fails (so at least one candidate succeeds), the run still
completes with one output scene per input scene; every failed candidate
keeps its pre-rewrite content and contributes no entry to scenes_changed;
every successful candidate whose rewrite changed its text contributes an
entry to scenes_changed. -/
theorem claim_C2 (canonical0 : Screenplay) (plan : ChangePlan)
    (sd ed : Option Int) (oracle : Nat → Except Unit (List JVal))
    (hsub : ∃ j ∈ selectedIndices (assign_acts canonical0) plan sd ed,
      ∃ texts, oracle j = Except.ok texts) :
    (rewrite_fdx_with_plan canonical0 plan sd ed oracle).updated.scenes.length
      = canonical0.scenes.length
    ∧ (∀ i, i ∈ selectedIndices (assign_acts canonical0) plan sd ed →
        oracle i = Except.error () →
        (rewrite_fdx_with_plan canonical0 plan sd ed oracle).updated.scenes.get? i
          = (assign_acts canonical0).scenes.get? i
        ∧ ∀ e ∈ (rewrite_fdx_with_plan canonical0 plan sd ed
            oracle).diff_report.scenes_changed, e.scene_index ≠ i + 1)
    ∧ (∀ i texts original, i ∈ selectedIndices (assign_acts canonical0) plan sd ed →
        oracle i = Except.ok texts →
        (assign_acts canonical0).scenes.get? i = some original →
        diff_scene original (rewrite_scene_with_gemini original texts) ≠ [] →
        ∃ e ∈ (rewrite_fdx_with_plan canonical0 plan sd ed
          oracle).diff_report.scenes_changed, e.scene_index = i + 1) := by
  refine ⟨?_, ?_, ?_⟩
  · show (runMerge (assign_acts canonical0)
      (selectedIndices (assign_acts canonical0) plan sd ed) oracle).1.scenes.length = _
    rw [runMerge_length, assign_acts_length]
  · intro i hmem hi
    constructor
    · show (runMerge (assign_acts canonical0)
        (selectedIndices (assign_acts canonical0) plan sd ed) oracle).1.scenes.get? i = _
      exact runMerge_get?_of_error _ _ oracle i hi
    · intro e he hcontra
      have hrep := runMerge_aux_report (assign_acts canonical0) oracle
        (selectedIndices (assign_acts canonical0) plan sd ed)
        ((assign_acts canonical0), []) e he
      rcases hrep with hrep | hrep
      · simp at hrep
      · obtain ⟨idx, -, texts, original, ho, -, hee⟩ := hrep
        have hidx : idx = i := by
          have : e.scene_index = idx + 1 := by rw [hee]
          omega
        subst hidx
        rw [hi] at ho
        exact Except.noConfusion ho
  · intro i texts original hmem ho hget hd
    exact runMerge_aux_report_present (assign_acts canonical0) oracle
      (selectedIndices (assign_acts canonical0) plan sd ed)
      ((assign_acts canonical0), []) i texts original hmem ho hget hd

/-- Two-scene screenplay with one element per scene, used by witnesses. -/
def spTwo : Screenplay :=
  ⟨[⟨"S001", "H1", [⟨"Action", "A"⟩], ""⟩,
    ⟨"S002", "H2", [⟨"Action", "B"⟩], ""⟩]⟩

/-- Oracle failing task 0 and succeeding on every other task. -/
def oracleFailZero : Nat → Except Unit (List JVal) :=
  fun j => if j = 0 then Except.error () else Except.ok [JVal.jstr "Z"]

/-- Claim C2 witness: on a two-scene explicit range run where task 0 fails
and task 1 succeeds, the output still has two scenes and scene 0 keeps its
pre-rewrite content. -/
theorem claim_C2_witness :
    (rewrite_fdx_with_plan spTwo ⟨[]⟩ (some 1) (some 2) oracleFailZero).updated.scenes.length = 2
    ∧ (rewrite_fdx_with_plan spTwo ⟨[]⟩ (some 1) (some 2) oracleFailZero).updated.scenes.get? 0
      = (assign_acts spTwo).scenes.get? 0 := by
  have h := claim_C2 spTwo ⟨[]⟩ (some 1) (some 2) oracleFailZero
    ⟨1, by decide, [JVal.jstr "Z"], rfl⟩
  constructor
  · rw [h.1]
    rfl
  · exact (h.2.1 0 (by decide) rfl).1

/-- Claim C9: for every scene and successfully parsed response list, the
rewritten scene keeps the scene id, the heading, the element count and the
element type at every index; an element keeps its original text whenever
the response list is shorter than its position needs or its entry there is
not a string. -/
theorem claim_C9 (scene : Scene) (texts : List JVal) :
    (rewrite_scene_with_gemini scene texts).scene_id = scene.scene_id
    ∧ (rewrite_scene_with_gemini scene texts).heading = scene.heading
    ∧ (rewrite_scene_with_gemini scene texts).elements.length = scene.elements.length
    ∧ (∀ k, ((rewrite_scene_with_gemini scene texts).elements.get? k).map Element.type
        = (scene.elements.get? k).map Element.type)
    ∧ (∀ k, (texts.length ≤ k ∨ texts.get? k = some JVal.jother) →
        (rewrite_scene_with_gemini scene texts).elements.get? k
          = scene.elements.get? k) :=
  ⟨(rewrite_scene_fields scene texts).1,
   (rewrite_scene_fields scene texts).2.1,
   (rewrite_scene_fields scene texts).2.2.2,
   fun k => rewrite_scene_type scene texts k,
   fun k h => rewrite_scene_keep scene texts k h⟩

/-- Scene with two Action elements, used by witnesses. -/
def scTwoEl : Scene := ⟨"S001", "H", [⟨"Action", "A"⟩, ⟨"Action", "B"⟩], ""⟩

/-- Claim C9 witness: with a one-entry response list on a two-element scene,
element 1 keeps its text, and the shape is preserved. -/
theorem claim_C9_witness :
    (rewrite_scene_with_gemini scTwoEl [JVal.jstr "X"]).elements.length = 2
    ∧ (rewrite_scene_with_gemini scTwoEl [JVal.jstr "X"]).elements.get? 1
      = scTwoEl.elements.get? 1 := by
  have h := claim_C9 scTwoEl [JVal.jstr "X"]
  constructor
  · rw [h.2.2.1]
    rfl
  · exact h.2.2.2.2 1 (Or.inl (by decide))

/-- One-scene screenplay with two elements, used by the C7 counterexample. -/
def spOne : Screenplay := ⟨[scTwoEl]⟩

/-- Claim C7 counterexample: a parsed response list of length 1 for a
two-element candidate scene is NOT treated as a failure: the run overwrites
element 0, keeps element 1, writes the partially updated scene back and
reports it as changed, contradicting the claim that such a payload leaves
the scene untouched as a failed candidate. -/
theorem claim_C7_counterexample :
    ((rewrite_fdx_with_plan spOne ⟨[]⟩ (some 1) (some 1)
        (fun _ => Except.ok [JVal.jstr "X"])).updated.scenes.get? 0).map Scene.elements
      = some [⟨"Action", "X"⟩, ⟨"Action", "B"⟩]
    ∧ (rewrite_fdx_with_plan spOne ⟨[]⟩ (some 1) (some 1)
        (fun _ => Except.ok [JVal.jstr "X"])).diff_report.scenes_changed.length = 1 := by
  exact ⟨by decide, by decide⟩

/-- Claim C7 (amended): an exception inside a rewrite task (transport
failure, unparsable JSON, an unindexable payload) leaves the scene slot
untouched; a successfully parsed JSON list of mismatched length is merged
element-wise instead of being treated as a failure — entries beyond the
list or that are not strings leave the element text unchanged — and the
written-back scene always keeps id, heading, element count and element
types, so no wrongly shaped scene is ever produced. -/
theorem claim_C7_amended :
    (∀ canonical tasks oracle i, oracle i = Except.error () →
      (runMerge canonical tasks oracle).1.scenes.get? i = canonical.scenes.get? i)
    ∧ (∀ scene texts k, (texts.length ≤ k ∨ texts.get? k = some JVal.jother) →
        (rewrite_scene_with_gemini scene texts).elements.get? k
          = scene.elements.get? k)
    ∧ (∀ scene texts,
        (rewrite_scene_with_gemini scene texts).scene_id = scene.scene_id
        ∧ (rewrite_scene_with_gemini scene texts).heading = scene.heading
        ∧ (rewrite_scene_with_gemini scene texts).elements.length = scene.elements.length
        ∧ ∀ k, ((rewrite_scene_with_gemini scene texts).elements.get? k).map Element.type
            = (scene.elements.get? k).map Element.type) :=
  ⟨fun canonical tasks oracle i hi => runMerge_get?_of_error canonical tasks oracle i hi,
   fun scene texts k h => rewrite_scene_keep scene texts k h,
   fun scene texts =>
     ⟨(rewrite_scene_fields scene texts).1,
      (rewrite_scene_fields scene texts).2.1,
      (rewrite_scene_fields scene texts).2.2.2,
      fun k => rewrite_scene_type scene texts k⟩⟩

/-- Claim C7 witness: the amended statement instantiated on a concrete
failing task and a concrete short response list. -/
theorem claim_C7_witness :
    (runMerge spOne [0] (fun _ => Except.error ())).1.scenes.get? 0
      = spOne.scenes.get? 0
    ∧ (rewrite_scene_with_gemini scTwoEl [JVal.jstr "X"]).elements.get? 1
      = scTwoEl.elements.get? 1 :=
  ⟨claim_C7_amended.1 spOne [0] (fun _ => Except.error ()) 0 rfl,
   claim_C7_amended.2.1 scTwoEl [JVal.jstr "X"] 1 (Or.inl (by decide))⟩

/-- Claim C3 counterexample: with the inverted explicit range start 5,
end 2 on a four-scene screenplay, no ScopeError exists in the code: the run
selects no scene, completes, and returns the full serialization of the
unchanged screenplay together with an empty change list — output IS
produced. -/
theorem claim_C3_counterexample :
    selectedIndices (assign_acts spFour) ⟨[]⟩ (some 5) (some 2) = []
    ∧ (rewrite_fdx_with_plan spFour ⟨[]⟩ (some 5) (some 2)
        (fun _ => Except.error ())).fountain_text
      = screenplay_to_fountain (assign_acts spFour)
    ∧ (rewrite_fdx_with_plan spFour ⟨[]⟩ (some 5) (some 2)
        (fun _ => Except.error ())).fountain_text ≠ ""
    ∧ (rewrite_fdx_with_plan spFour ⟨[]⟩ (some 5) (some 2)
        (fun _ => Except.error ())).diff_report.scenes_changed = [] := by
  refine ⟨by decide, rfl, by decide, rfl⟩

/-- Claim C3 (amended): an explicit truthy range whose clamped window is
empty (for example end before start, or start beyond the last scene)
selects no candidate, dispatches no rewrite task, raises nothing, and the
run completes returning the serialization of the unchanged screenplay and
an empty scenes_changed list. -/
theorem claim_C3_amended (canonical0 : Screenplay) (plan : ChangePlan)
    (oracle : Nat → Except Unit (List JVal)) (s e : Int)
    (hs : s ≠ 0) (he : e ≠ 0)
    (hempty : min (e - 1) ((canonical0.scenes.length : Int) - 1) < max (s - 1) 0) :
    selectedIndices (assign_acts canonical0) plan (some s) (some e) = []
    ∧ (rewrite_fdx_with_plan canonical0 plan (some s) (some e) oracle).updated
      = assign_acts canonical0
    ∧ (rewrite_fdx_with_plan canonical0 plan (some s) (some e)
        oracle).diff_report.scenes_changed = []
    ∧ (rewrite_fdx_with_plan canonical0 plan (some s) (some e) oracle).fountain_text
      = screenplay_to_fountain (assign_acts canonical0) := by
  have hcond : (truthy (some s) && truthy (some e)) = true := by
    simp only [truthy, Bool.and_eq_true, bne_iff_ne]
    exact ⟨hs, he⟩
  have hlen : ((assign_acts canonical0).scenes.length : Int)
      = (canonical0.scenes.length : Int) := by
    rw [assign_acts_length]
  have htasks : selectedIndices (assign_acts canonical0) plan (some s) (some e) = [] := by
    unfold selectedIndices rangeParams
    rw [if_pos hcond]
    apply selectFrom_nil_of_empty
    rw [hlen]
    exact hempty
  refine ⟨htasks, ?_, ?_, ?_⟩
  · show (runMerge (assign_acts canonical0)
      (selectedIndices (assign_acts canonical0) plan (some s) (some e)) oracle).1 = _
    rw [htasks]
    rfl
  · show (runMerge (assign_acts canonical0)
      (selectedIndices (assign_acts canonical0) plan (some s) (some e)) oracle).2 = _
    rw [htasks]
    rfl
  · show screenplay_to_fountain (runMerge (assign_acts canonical0)
      (selectedIndices (assign_acts canonical0) plan (some s) (some e)) oracle).1 = _
    rw [htasks]
    rfl

/-- Claim C3 witness: the amended statement instantiated at start 5, end 2
on the four-scene screenplay. -/
theorem claim_C3_witness :
    selectedIndices (assign_acts spFour) ⟨[⟨"C1", "d", "Act I"⟩]⟩ (some 5) (some 2) = []
    ∧ (rewrite_fdx_with_plan spFour ⟨[⟨"C1", "d", "Act I"⟩]⟩ (some 5) (some 2)
        (fun _ => Except.ok [])).updated = assign_acts spFour := by
  have h := claim_C3_amended spFour ⟨[⟨"C1", "d", "Act I"⟩]⟩
    (fun _ => Except.ok []) 5 2 (by decide) (by decide) (by decide)
  exact ⟨h.1, h.2.1⟩

/-! ## Change plan schema validation (src/services/notes_to_json.py:121)

notes_docx_to_change_plan reads the notes, calls Gemini and then validates
the parsed JSON.  The reading and the call are external; the embedding
starts from the value json.loads produced.  That value is modelled by shape:
not a JSON object; an object without the scene_level_changes key; an object
whose value there is not a list; or a list of entries, each either not an
object or an object with optional string fields description and placement
(field values of other JSON types do not occur in the runs modelled here).
A json.loads failure raises before this code is reached and is outside the
model. -/

inductive EntryJson where
  | notDict
  | entry (description : Option String) (placement : Option String)
deriving DecidableEq, Repr

inductive SlcJson where
  | notList
  | list (entries : List EntryJson)
deriving DecidableEq, Repr

inductive PlanJson where
  | notDict
  | dict (slc : Option SlcJson)
deriving DecidableEq, Repr

/-- The body of the cleaning loop: skip a non-object entry, read description
and placement with empty-string defaults, skip an entry whose stripped
description is empty, otherwise emit the cleaned change whose change_id is
C followed by the 1-based position in the raw list. -/
def cleanEntry (i : Nat) (e : EntryJson) : Option Change :=
  match e with
  | EntryJson.notDict => none
  | EntryJson.entry desc plc =>
    if pyStrip (desc.getD "") = "" then none
    else some ⟨"C" ++ toString (i + 1), pyStrip (desc.getD ""),
               normalize_placement (plc.getD "")⟩

/-- The enumerate(..., start=1) loop over the raw entries; skipped entries
still consume their index. -/
def cleanFrom : Nat → List EntryJson → List Change
  | _, [] => []
  | i, e :: rest =>
    match cleanEntry i e with
    | some c => c :: cleanFrom (i + 1) rest
    | none => cleanFrom (i + 1) rest

def cleanChanges (es : List EntryJson) : List Change := cleanFrom 0 es

/-- The validation part of notes_docx_to_change_plan: reject a non-object
plan; default a missing scene_level_changes key to the empty list; reject a
non-list value; clean the entries. -/
def notes_docx_to_change_plan (plan : PlanJson) : Except String ChangePlan :=
  match plan with
  | PlanJson.notDict => Except.error "Change plan must be a JSON object."
  | PlanJson.dict none => Except.ok ⟨cleanChanges []⟩
  | PlanJson.dict (some SlcJson.notList) =>
      Except.error "scene_level_changes must be a list."
  | PlanJson.dict (some (SlcJson.list es)) => Except.ok ⟨cleanChanges es⟩

theorem mem_cleanFrom (es : List EntryJson) (n : Nat) (c : Change)
    (hc : c ∈ cleanFrom n es) :
    ∃ j d p, es.get? j = some (EntryJson.entry d p)
      ∧ pyStrip (d.getD "") ≠ ""
      ∧ c = ⟨"C" ++ toString (n + j + 1), pyStrip (d.getD ""),
             normalize_placement (p.getD "")⟩ := by
  induction es generalizing n with
  | nil => simp [cleanFrom] at hc
  | cons e rest ih =>
    unfold cleanFrom at hc
    cases he : cleanEntry n e with
    | some c0 =>
      rw [he] at hc
      rcases List.mem_cons.mp hc with hc | hc
      · subst hc
        cases e with
        | notDict => simp [cleanEntry] at he
        | entry d p =>
          simp only [cleanEntry] at he
          by_cases hd : pyStrip (d.getD "") = ""
          · rw [if_pos hd] at he
            exact Option.noConfusion he
          · rw [if_neg hd] at he
            refine ⟨0, d, p, rfl, hd, ?_⟩
            have : n + 0 + 1 = n + 1 := by omega
            rw [this]
            exact (Option.some.inj he).symm
      · obtain ⟨j, d, p, hj, hd, hcc⟩ := ih (n + 1) hc
        refine ⟨j + 1, d, p, by simpa using hj, hd, ?_⟩
        have : n + (j + 1) + 1 = n + 1 + j + 1 := by omega
        rw [this]
        exact hcc
    | none =>
      rw [he] at hc
      obtain ⟨j, d, p, hj, hd, hcc⟩ := ih (n + 1) hc
      refine ⟨j + 1, d, p, by simpa using hj, hd, ?_⟩
      have : n + (j + 1) + 1 = n + 1 + j + 1 := by omega
      rw [this]
      exact hcc

/-- Claim C4 counterexample: a plan missing the scene_level_changes key is
NOT rejected — the code inserts an empty list and returns an empty change
plan, contradicting the claimed fatal SchemaError. -/
theorem claim_C4_counterexample :
    notes_docx_to_change_plan (PlanJson.dict none) = Except.ok ⟨[]⟩ := rfl

/-- Claim C4 (amended): a plan that is not a JSON object, or whose
scene_level_changes value is present but not a sequence, is rejected with a
fatal error; a plan missing the key is accepted with an empty change list;
entries that are not objects or whose stripped description is empty are
skipped without failing the run, and every produced change comes from a
well-formed entry at its own position. -/
theorem claim_C4_amended :
    notes_docx_to_change_plan PlanJson.notDict
      = Except.error "Change plan must be a JSON object."
    ∧ notes_docx_to_change_plan (PlanJson.dict (some SlcJson.notList))
      = Except.error "scene_level_changes must be a list."
    ∧ notes_docx_to_change_plan (PlanJson.dict none) = Except.ok ⟨[]⟩
    ∧ (∀ es, notes_docx_to_change_plan (PlanJson.dict (some (SlcJson.list es)))
        = Except.ok ⟨cleanChanges es⟩)
    ∧ (∀ es c, c ∈ cleanChanges es → ∃ j d p,
        es.get? j = some (EntryJson.entry d p)
        ∧ pyStrip (d.getD "") ≠ ""
        ∧ c = ⟨"C" ++ toString (j + 1), pyStrip (d.getD ""),
               normalize_placement (p.getD "")⟩) := by
  refine ⟨rfl, rfl, rfl, fun es => rfl, ?_⟩
  intro es c hc
  have h := mem_cleanFrom es 0 c hc
  obtain ⟨j, d, p, hj, hd, hcc⟩ := h
  refine ⟨j, d, p, hj, hd, ?_⟩
  have : (0 : Nat) + j + 1 = j + 1 := by omega
  rw [this] at hcc
  exact hcc

/-- Concrete raw entry list for the C4 witness: a non-object entry, a
well-formed entry, and an entry with blank description. -/
def esWitness : List EntryJson :=
  [EntryJson.notDict,
   EntryJson.entry (some "Fix pacing") (some "Act II"),
   EntryJson.entry (some "  ") none]

/-- Claim C4 witness: the amended statement instantiated on a concrete
entry list — the two malformed entries are skipped, the kept change carries
the id of its raw position, and its placement was normalized. -/
theorem claim_C4_witness :
    notes_docx_to_change_plan (PlanJson.dict (some (SlcJson.list esWitness)))
      = Except.ok ⟨[⟨"C2", "Fix pacing", "Act I"⟩]⟩
    ∧ ∃ j d p, esWitness.get? j = some (EntryJson.entry d p)
        ∧ pyStrip (d.getD "") ≠ ""
        ∧ (⟨"C2", "Fix pacing", "Act I"⟩ : Change)
          = ⟨"C" ++ toString (j + 1), pyStrip (d.getD ""),
             normalize_placement (p.getD "")⟩ := by
  constructor
  · rw [claim_C4_amended.2.2.2.1 esWitness]
    rfl
  · exact claim_C4_amended.2.2.2.2 esWitness ⟨"C2", "Fix pacing", "Act I"⟩ (by decide)

end ScreenplayBot
